import Mathlib

/-!
Verification of the DL2-writing stage of protopipe
(src/protopipe/scripts/write_dl2.py), as a shallow embedding.

Modelling conventions:
* Floating-point values are modelled by `FQ := Option ℚ`, where `none`
  stands for a non-finite float (NaN or an infinity).  The only operation
  that can turn finite inputs into a non-finite result in the modelled
  code is division by zero (`fdiv`), exactly as in numpy, which emits a
  RuntimeWarning and yields NaN/inf instead of raising.
* External numeric collaborators (log10, the trained per-camera models,
  astropy's angular separation) are parameters of the embedding; the
  script only composes them.
* Machine integer columns of the PyTables row description are modelled by
  wrapping into the signed 16/32-bit range, as numpy does on assignment.
* A Python `KeyError` escaping `main` (the `model_dict[cam_id]` lookups)
  is modelled by `Except.error`.
-/

namespace WriteDL2

/-- Model of a float value: `some q` is a finite value, `none` a
non-finite one (NaN or ±inf). -/
abbrev FQ := Option ℚ

/-- Float addition: finite + finite is finite, anything else non-finite. -/
def fadd : FQ → FQ → FQ
  | some a, some b => some (a + b)
  | _, _ => none

/-- Float multiplication (non-finiteness propagates). -/
def fmul : FQ → FQ → FQ
  | some a, some b => some (a * b)
  | _, _ => none

/-- Float division: a zero divisor yields a non-finite result (numpy
emits a warning and produces NaN or ±inf; no exception is raised). -/
def fdiv : FQ → FQ → FQ
  | some a, some b => if b = 0 then none else some (a / b)
  | _, _ => none

/-- Sum of a list of float values, as np.sum / builtin sum do. -/
def fsum (l : List FQ) : FQ := l.foldr fadd (some 0)

/-- Intensity-weighted fusion of per-telescope estimates,
write_dl2.py lines 187 and 208:
np.sum(weight_tel * energy_tel) / sum(weight_tel). -/
def fuse (vals weights : List FQ) : FQ :=
  fdiv (fsum (List.zipWith fmul weights vals)) (fsum weights)

/-- Hillas moments of one telescope image (fields used by the script). -/
structure HillasMoments where
  intensity : ℚ
  width : ℚ
  length : ℚ
  skewness : ℚ
  kurtosis : ℚ
deriving DecidableEq, Repr

/-- Data of one telescope contributing to an event: its entry in
hillas_dict together with the camera identifier and impact distance. -/
structure TelData where
  cam_id : String
  moments : HillasMoments
  impact : ℚ
deriving DecidableEq, Repr

/-- Event-level geometric fit, reco_result in the script. -/
structure RecoResult where
  alt : ℚ
  az : ℚ
  core_x : ℚ
  core_y : ℚ
  h_max : ℚ
deriving DecidableEq, Repr

/-- One event as yielded to the per-event loop of write_dl2.py:134-144,
with the fields the loop body reads.  `hillas = none` models
hillas_dict being None (missing geometry). -/
structure Event where
  obs_id : ℤ
  event_id : ℤ
  mc_energy : ℚ
  mc_alt : ℚ
  mc_az : ℚ
  mc_core_x : ℚ
  mc_core_y : ℚ
  run_array_az : ℚ
  run_array_alt : ℚ
  nTelsTrig : ℤ
  nTelsLST : ℤ
  nTelsMST : ℤ
  nTelsSST : ℤ
  hillas : Option (List TelData)
  recoResult : RecoResult
deriving DecidableEq, Repr

/-- Wrap an integer into the signed range of the given number of bits,
as numpy does when assigning to an IntNCol. -/
def wrapSigned (bits : ℕ) (v : ℤ) : ℤ :=
  (v + 2 ^ (bits - 1)) % 2 ^ bits - 2 ^ (bits - 1)

/-- Storage conversion of a tb.Int16Col assignment. -/
def storeInt16 (v : ℤ) : ℤ := wrapSigned 16 v

/-- Storage conversion of a tb.Int32Col assignment. -/
def storeInt32 (v : ℤ) : ℤ := wrapSigned 32 v

/-- The RecoEvent row description of write_dl2.py:95-118, with each
column's declared default.  Float columns default to NaN (`none`),
obs_id and event_id to -1, the telescope counters to 0,
success to False. -/
structure RecoEventRow where
  obs_id : ℤ := -1
  event_id : ℤ := -1
  NTels_trig : ℤ := 0
  NTels_reco : ℤ := 0
  NTels_reco_lst : ℤ := 0
  NTels_reco_mst : ℤ := 0
  NTels_reco_sst : ℤ := 0
  mc_energy : FQ := none
  reco_energy : FQ := none
  reco_alt : FQ := none
  reco_az : FQ := none
  offset : FQ := none
  xi : FQ := none
  ErrEstPos : FQ := none
  ErrEstDir : FQ := none
  gammaness : FQ := none
  success : Bool := false
  score : FQ := none
  h_max : FQ := none
  reco_core_x : FQ := none
  reco_core_y : FQ := none
  mc_core_x : FQ := none
  mc_core_y : FQ := none
deriving DecidableEq, Repr

/-- A Python exception escaping the per-event loop: the KeyError raised
by regressor.model_dict[cam_id] (line 175) or
classifier.model_dict[cam_id] (line 196) when the camera type has no
model. -/
inductive ProcError where
  | missingRegressorModel (cam_id : String)
  | missingClassifierModel (cam_id : String)
deriving DecidableEq, Repr

/-- A model bank (regressor.model_dict / classifier.model_dict): per
camera identifier, optionally a model mapping a feature vector to a
scalar prediction. -/
abbrev ModelBank := String → Option (List FQ → FQ)

/-- Float lift of the external log10 function. -/
def flog10 (log10 : ℚ → FQ) (x : FQ) : FQ := x.bind log10

/-- Energy-regression feature vector of one telescope,
write_dl2.py:177-183. -/
def energyFeatures (log10 : ℚ → FQ) (h_max : ℚ) (t : TelData) : List FQ :=
  [log10 t.moments.intensity,
   log10 t.impact,
   some t.moments.width,
   some t.moments.length,
   some h_max]

/-- Classification feature vector of one telescope,
write_dl2.py:197-204; its first entry is log10 of the already fused
event-level energy. -/
def classificationFeatures (log10 : ℚ → FQ) (reco_energy : FQ) (h_max : ℚ)
    (t : TelData) : List FQ :=
  [flog10 log10 reco_energy,
   some t.moments.width,
   some t.moments.length,
   some t.moments.skewness,
   some t.moments.kurtosis,
   some h_max]

/-- Error-propagating map over a list: the per-telescope loops of the
script, where a raised KeyError aborts the whole computation. -/
def exceptMap {ε α β : Type} (f : α → Except ε β) : List α → Except ε (List β)
  | [] => Except.ok []
  | a :: l =>
      match f a with
      | Except.error err => Except.error err
      | Except.ok b =>
          match exceptMap f l with
          | Except.error err => Except.error err
          | Except.ok bs => Except.ok (b :: bs)

/-- Per-telescope energy estimates, write_dl2.py:169-185: for each
telescope in hillas_dict, look the regressor up by camera type
(KeyError when absent) and apply it to the energy features. -/
def telEnergies (regB : ModelBank) (log10 : ℚ → FQ) (h_max : ℚ)
    (tels : List TelData) : Except ProcError (List FQ) :=
  exceptMap (fun t =>
    match regB t.cam_id with
    | none => Except.error (ProcError.missingRegressorModel t.cam_id)
    | some model => Except.ok (model (energyFeatures log10 h_max t))) tels

/-- Per-telescope classification scores, write_dl2.py:190-206: for each
telescope, look the classifier up by camera type (KeyError when absent)
and apply it to the classification features built from the fused
event-level energy. -/
def telScores (clB : ModelBank) (log10 : ℚ → FQ) (reco_energy : FQ)
    (h_max : ℚ) (tels : List TelData) : Except ProcError (List FQ) :=
  exceptMap (fun t =>
    match clB t.cam_id with
    | none => Except.error (ProcError.missingClassifierModel t.cam_id)
    | some model =>
        Except.ok (model (classificationFeatures log10 reco_energy h_max t))) tels

/-- Fusion weights, write_dl2.py:185 and 206: the telescope intensities. -/
def telWeights (tels : List TelData) : List FQ :=
  tels.map (fun t => some t.moments.intensity)

/-- Body of the per-event loop, write_dl2.py:147-247 up to the append:
computes the angular metrics, then either the full fused row
(hillas_dict present) or the minimal failure row (hillas_dict None).
Both branches set mc_energy, event_id and obs_id (lines 242-244). -/
def processEvent (regB clB : ModelBank) (log10 : ℚ → FQ)
    (aSep : ℚ → ℚ → ℚ → ℚ → ℚ) (e : Event) : Except ProcError RecoEventRow :=
  let xi := aSep e.mc_az e.mc_alt e.recoResult.az e.recoResult.alt
  let offset := aSep e.run_array_az e.run_array_alt e.recoResult.az e.recoResult.alt
  let h_max := e.recoResult.h_max
  match e.hillas with
  | some tels =>
      match telEnergies regB log10 h_max tels with
      | Except.error err => Except.error err
      | Except.ok energy_tel =>
      let weight_tel := telWeights tels
      let reco_energy := fuse energy_tel weight_tel
      match telScores clB log10 reco_energy h_max tels with
      | Except.error err => Except.error err
      | Except.ok score_tel =>
      let score := fuse score_tel weight_tel
      Except.ok
        { NTels_trig := storeInt16 e.nTelsTrig
          NTels_reco := storeInt16 tels.length
          NTels_reco_lst := storeInt16 e.nTelsLST
          NTels_reco_mst := storeInt16 e.nTelsMST
          NTels_reco_sst := storeInt16 e.nTelsSST
          reco_energy := reco_energy
          reco_alt := some e.recoResult.alt
          reco_az := some e.recoResult.az
          offset := some offset
          xi := some xi
          h_max := some h_max
          reco_core_x := some e.recoResult.core_x
          reco_core_y := some e.recoResult.core_y
          mc_core_x := some e.mc_core_x
          mc_core_y := some e.mc_core_y
          score := score
          success := true
          ErrEstPos := none
          ErrEstDir := none
          mc_energy := some e.mc_energy
          event_id := storeInt32 e.event_id
          obs_id := storeInt16 e.obs_id }
  | none =>
      Except.ok
        { success := false
          mc_energy := some e.mc_energy
          event_id := storeInt32 e.event_id
          obs_id := storeInt16 e.obs_id }

/-- Modelled from the spec: one input file together with the sequence of
events the external event source and EventPreparer (protopipe.pipeline,
not under src/) yield from it, in source-provided order; section 2 of the
spec states that for each input file the source yields a sequence of
events already carrying per-telescope Hillas moments, impact parameters
and telescope counts. -/
structure InputFile where
  name : String
  events : List Event

/-- Stable insertion of a file into a name-sorted list. -/
def insertFile (f : InputFile) : List InputFile → List InputFile
  | [] => [f]
  | g :: rest =>
      if f.name ≤ g.name then f :: g :: rest else g :: insertFile f rest

/-- The filenamelist.sort() of write_dl2.py:55: ascending, stable sort of
the input files by name. -/
def sortFiles : List InputFile → List InputFile
  | [] => []
  | f :: rest => insertFile f (sortFiles rest)

/-- All events of a run in arrival order: files in sorted-name order,
events within a file in source order. -/
def arrivalEvents (files : List InputFile) : List Event :=
  (sortFiles files).flatMap (fun f => f.events)

/-- One observable operation of the record writer. -/
inductive WOp where
  | beginEvent (e : Event)
  | flush
  | append (r : RecoEventRow)
deriving DecidableEq, Repr

/-- Inner per-event loop, write_dl2.py:142-250.  For each event the body
runs (beginEvent), then reco_table.flush() (line 246), then
reco_event.append() (line 247); afterwards the cancellation flag is
inspected (line 249) and, when set, the loop breaks.  `stop k` is the
flag value observed at a check made after k events have completed; the
flag is set asynchronously by the SIGINT handler and only read at these
checkpoints.  Returns the writer trace and the updated event count. -/
def runEvents (regB clB : ModelBank) (log10 : ℚ → FQ)
    (aSep : ℚ → ℚ → ℚ → ℚ → ℚ) (stop : ℕ → Bool) :
    List Event → ℕ → Except ProcError (List WOp × ℕ)
  | [], count => Except.ok ([], count)
  | e :: rest, count =>
      match processEvent regB clB log10 aSep e with
      | Except.error err => Except.error err
      | Except.ok r =>
          let ops := [WOp.beginEvent e, WOp.flush, WOp.append r]
          if stop (count + 1) then
            Except.ok (ops, count + 1)
          else
            match runEvents regB clB log10 aSep stop rest (count + 1) with
            | Except.error err => Except.error err
            | Except.ok (ops2, c2) => Except.ok (ops ++ ops2, c2)

/-- Outer per-file loop, write_dl2.py:134-252: after each file's inner
loop ends the cancellation flag is inspected again (line 251) and, when
set, the outer loop breaks. -/
def runFiles (regB clB : ModelBank) (log10 : ℚ → FQ)
    (aSep : ℚ → ℚ → ℚ → ℚ → ℚ) (stop : ℕ → Bool) :
    List InputFile → ℕ → Except ProcError (List WOp × ℕ)
  | [], count => Except.ok ([], count)
  | f :: rest, count =>
      match runEvents regB clB log10 aSep stop f.events count with
      | Except.error err => Except.error err
      | Except.ok (ops, c) =>
          if stop c then
            Except.ok (ops, c)
          else
            match runFiles regB clB log10 aSep stop rest c with
            | Except.error err => Except.error err
            | Except.ok (ops2, c2) => Except.ok (ops ++ ops2, c2)

/-- Whole processing run after startup, write_dl2.py:134-255: sort the
input files by name, run the two nested loops, and finish with the final
reco_table.flush() of line 255. -/
def runTrace (regB clB : ModelBank) (log10 : ℚ → FQ)
    (aSep : ℚ → ℚ → ℚ → ℚ → ℚ) (stop : ℕ → Bool)
    (files : List InputFile) : Except ProcError (List WOp) :=
  (runFiles regB clB log10 aSep stop (sortFiles files) 0).map
    (fun p => p.1 ++ [WOp.flush])

/-- The rows appended to the output table during a trace, in order. -/
def extractRows (tr : List WOp) : List RecoEventRow :=
  tr.filterMap (fun op =>
    match op with
    | WOp.append r => some r
    | _ => none)

/-- The sequence of records a run appends to the output table. -/
def runRows (regB clB : ModelBank) (log10 : ℚ → FQ)
    (aSep : ℚ → ℚ → ℚ → ℚ → ℚ) (stop : ℕ → Bool)
    (files : List InputFile) : Except ProcError (List RecoEventRow) :=
  (runTrace regB clB log10 aSep stop files).map extractRows

/-- Outcome of the startup file-discovery code, write_dl2.py:51-59. -/
inductive StartupOutcome where
  | nameError
  | reportedExit
  | proceed (files : List String)
deriving DecidableEq, Repr

/-- Stable insertion of a name into a sorted list of names. -/
def insertName (s : String) : List String → List String
  | [] => [s]
  | t :: rest => if s ≤ t then s :: t :: rest else t :: insertName s rest

/-- Ascending stable sort of filenames, list.sort() of write_dl2.py:55. -/
def sortNames : List String → List String
  | [] => []
  | s :: rest => insertName s (sortNames rest)

/-- Startup file discovery, write_dl2.py:51-59.  When args.infile_list is
truthy (a non-empty list), filenamelist is built by globbing each entry
under indir and sorted; if it ends up empty the script prints the
no-files message and calls exit(-1).  When args.infile_list is falsy
(absent or an empty list), the assignment of filenamelist is skipped and
line 57 reads an unbound local variable, raising NameError. -/
def startup (infileList : Option (List String))
    (globMatches : String → List String) : StartupOutcome :=
  match infileList with
  | none => StartupOutcome.nameError
  | some [] => StartupOutcome.nameError
  | some fs =>
      let filenamelist := sortNames (fs.flatMap globMatches)
      if filenamelist.isEmpty then StartupOutcome.reportedExit
      else StartupOutcome.proceed filenamelist

/-- Checks that every append in a writer trace is eventually followed by
a flush (so the row is durably written before the run returns). -/
def allAppendsFlushed : List WOp → Bool
  | [] => true
  | WOp.append _ :: rest =>
      rest.any (fun op =>
        match op with
        | WOp.flush => true
        | _ => false) && allAppendsFlushed rest
  | _ :: rest => allAppendsFlushed rest

/-- State-passing checker for the discipline claimed by the spec: after a
row is appended, a flush happens before the next event's processing
begins, and no append is left unflushed at the end of the trace.  The
second argument records whether an append without a subsequent flush is
pending. -/
def flushDisciplineFrom : List WOp → Bool → Bool
  | [], pending => !pending
  | WOp.beginEvent _ :: rest, pending => !pending && flushDisciplineFrom rest pending
  | WOp.flush :: rest, _ => flushDisciplineFrom rest false
  | WOp.append _ :: rest, _ => flushDisciplineFrom rest true

/-- The spec's claimed flush discipline: storage is flushed after each
appended row before the next event is processed, and all rows are
flushed by the end of the trace. -/
def flushAfterEachAppend (tr : List WOp) : Bool :=
  flushDisciplineFrom tr false

/-- Checks that every append in the trace is immediately preceded by a
flush (the discipline the code actually implements: flush on line 246,
then append on line 247). -/
def appendsPrecededByFlush : List WOp → Bool
  | WOp.flush :: WOp.append _ :: rest => appendsPrecededByFlush rest
  | WOp.append _ :: _ => false
  | _ :: rest => appendsPrecededByFlush rest
  | [] => true

/-- Writer traces produced by the per-event loop: a sequence of
begin/flush/append blocks, one block per event. -/
inductive Blocks : List WOp → Prop
  | nil : Blocks []
  | block (e : Event) (r : RecoEventRow) (rest : List WOp) :
      Blocks rest →
      Blocks (WOp.beginEvent e :: WOp.flush :: WOp.append r :: rest)

/-- Sample trained model used to instantiate the external model banks in
witnesses: it predicts the constant 1. -/
def sampleBank : ModelBank := fun _ => some (fun _ => some 1)

/-- Sample stand-in for the external log10 function in witnesses. -/
def sampleLog : ℚ → FQ := fun q => some q

/-- Sample stand-in for the external angular separation in witnesses. -/
def sampleSep : ℚ → ℚ → ℚ → ℚ → ℚ := fun _ _ _ _ => 0

/-- Sample Hillas moments with unit intensity. -/
def sampleMoments : HillasMoments :=
  { intensity := 1, width := 1, length := 1, skewness := 0, kurtosis := 0 }

/-- Sample telescope contribution. -/
def sampleTel : TelData :=
  { cam_id := "LSTCam", moments := sampleMoments, impact := 1 }

/-- Sample event-level geometric fit. -/
def sampleReco : RecoResult :=
  { alt := 0, az := 0, core_x := 0, core_y := 0, h_max := 0 }

/-- Sample event with a single contributing telescope. -/
def sampleEvent : Event :=
  { obs_id := 1, event_id := 1, mc_energy := 2, mc_alt := 0, mc_az := 0,
    mc_core_x := 0, mc_core_y := 0, run_array_az := 0, run_array_alt := 0,
    nTelsTrig := 1, nTelsLST := 1, nTelsMST := 0, nTelsSST := 0,
    hillas := some [sampleTel], recoResult := sampleReco }

/-- Sample event whose hillas_dict is None (missing geometry). -/
def sampleFailEvent : Event := { sampleEvent with hillas := none }

/-- The row the script emits for sampleFailEvent. -/
def sampleFailRow : RecoEventRow :=
  { success := false, mc_energy := some 2, event_id := 1, obs_id := 1 }

@[simp]
theorem except_map_ok {ε α β : Type} (f : α → β) (a : α) :
    Except.map f (Except.ok a : Except ε α) = Except.ok (f a) := rfl

@[simp]
theorem except_map_error {ε α β : Type} (f : α → β) (e : ε) :
    Except.map f (Except.error e : Except ε α) = Except.error e := rfl

theorem fuse_single (x : FQ) (w : ℚ) (hw : w ≠ 0) : fuse [x] [some w] = x := by
  cases x with
  | none => simp [fuse, fsum, fadd, fmul, fdiv]
  | some v => simp [fuse, fsum, fadd, fmul, fdiv, hw, mul_div_cancel_left₀]

theorem exceptMap_append {ε α β : Type} (f : α → Except ε β) (l1 l2 : List α) :
    exceptMap f (l1 ++ l2) =
      match exceptMap f l1 with
      | Except.error err => Except.error err
      | Except.ok b1 =>
          match exceptMap f l2 with
          | Except.error err => Except.error err
          | Except.ok b2 => Except.ok (b1 ++ b2) := by
  induction l1 with
  | nil =>
      simp only [List.nil_append, exceptMap]
      cases exceptMap f l2 <;> rfl
  | cons a l1 ih =>
      simp only [List.cons_append, exceptMap, List.append_eq]
      rw [ih]
      cases f a with
      | error err => rfl
      | ok b =>
          cases exceptMap f l1 with
          | error err => rfl
          | ok b1 => cases exceptMap f l2 <;> rfl

theorem exceptMap_ok_length {ε α β : Type} (f : α → Except ε β) :
    ∀ (l : List α) (rs : List β), exceptMap f l = Except.ok rs →
      rs.length = l.length := by
  intro l
  induction l with
  | nil => intro rs h; simp only [exceptMap] at h; cases h; rfl
  | cons a l ih =>
      intro rs h
      simp only [exceptMap] at h
      cases hf : f a with
      | error err => rw [hf] at h; cases h
      | ok b =>
          rw [hf] at h
          cases hm : exceptMap f l with
          | error err => rw [hm] at h; cases h
          | ok bs =>
              rw [hm] at h
              cases h
              simp [ih bs hm]

theorem extractRows_append (a b : List WOp) :
    extractRows (a ++ b) = extractRows a ++ extractRows b := by
  simp [extractRows, List.filterMap_append]

theorem extractRows_block (e : Event) (r : RecoEventRow) (ops : List WOp) :
    extractRows (WOp.beginEvent e :: WOp.flush :: WOp.append r :: ops) =
      r :: extractRows ops := by
  simp [extractRows, List.filterMap_cons]

theorem allAppendsFlushed_concat (l : List WOp) :
    allAppendsFlushed (l ++ [WOp.flush]) = true := by
  induction l with
  | nil => rfl
  | cons a rest ih =>
      cases a with
      | beginEvent e => simpa [allAppendsFlushed] using ih
      | flush => simpa [allAppendsFlushed] using ih
      | append r => simp [allAppendsFlushed, List.any_append, ih]

theorem Blocks.concat {l1 l2 : List WOp} (h1 : Blocks l1) (h2 : Blocks l2) :
    Blocks (l1 ++ l2) := by
  induction h1 with
  | nil => simpa using h2
  | block e r rest _ ih => simpa [List.cons_append] using Blocks.block e r _ ih

theorem blocks_appendsPreceded {l : List WOp} (h : Blocks l) :
    appendsPrecededByFlush (l ++ [WOp.flush]) = true := by
  induction h with
  | nil => rfl
  | block e r rest _ ih => exact ih

section RunLemmas

variable (regB clB : ModelBank) (log10 : ℚ → FQ)
variable (aSep : ℚ → ℚ → ℚ → ℚ → ℚ) (stop : ℕ → Bool)

theorem runEvents_noStop (hstop : ∀ k, stop k = false) :
    ∀ (evs : List Event) (c : ℕ),
      (runEvents regB clB log10 aSep stop evs c).map (fun p => extractRows p.1) =
        exceptMap (processEvent regB clB log10 aSep) evs := by
  intro evs
  induction evs with
  | nil => intro c; rfl
  | cons e rest ih =>
      intro c
      simp only [runEvents, exceptMap]
      cases hpe : processEvent regB clB log10 aSep e with
      | error err => rfl
      | ok r =>
          simp only [hstop (c + 1), Bool.false_eq_true, if_false]
          have ih' := ih (c + 1)
          cases hrec : runEvents regB clB log10 aSep stop rest (c + 1) with
          | error err =>
              rw [hrec] at ih'
              simp only [except_map_error] at ih'
              rw [← ih']
              rfl
          | ok p =>
              obtain ⟨ops2, c2⟩ := p
              rw [hrec] at ih'
              simp only [except_map_ok] at ih'
              rw [← ih']
              simp [extractRows_block, List.cons_append]

theorem runFiles_noStop (hstop : ∀ k, stop k = false) :
    ∀ (fs : List InputFile) (c : ℕ),
      (runFiles regB clB log10 aSep stop fs c).map (fun p => extractRows p.1) =
        exceptMap (processEvent regB clB log10 aSep)
          (fs.flatMap (fun f => f.events)) := by
  intro fs
  induction fs with
  | nil => intro c; rfl
  | cons f rest ih =>
      intro c
      simp only [runFiles, List.flatMap_cons, exceptMap_append]
      have hev := runEvents_noStop regB clB log10 aSep stop hstop f.events c
      cases hE : runEvents regB clB log10 aSep stop f.events c with
      | error err =>
          rw [hE] at hev
          simp only [except_map_error] at hev
          rw [← hev]
          rfl
      | ok p =>
          obtain ⟨ops, c1⟩ := p
          rw [hE] at hev
          simp only [except_map_ok] at hev
          rw [← hev]
          simp only [hstop c1, Bool.false_eq_true, if_false]
          have ih' := ih c1
          cases hR : runFiles regB clB log10 aSep stop rest c1 with
          | error err =>
              rw [hR] at ih'
              simp only [except_map_error] at ih'
              rw [← ih']
              rfl
          | ok q =>
              obtain ⟨ops2, c2⟩ := q
              rw [hR] at ih'
              simp only [except_map_ok] at ih'
              rw [← ih']
              simp [extractRows_append]

theorem runEvents_stop_prefix :
    ∀ (evs : List Event) (c : ℕ) (rs : List RecoEventRow),
      exceptMap (processEvent regB clB log10 aSep) evs = Except.ok rs →
      ∃ ops c2 n, runEvents regB clB log10 aSep stop evs c = Except.ok (ops, c2) ∧
        n ≤ rs.length ∧ extractRows ops = rs.take n ∧
        (stop c2 = false → extractRows ops = rs) := by
  intro evs
  induction evs with
  | nil =>
      intro c rs h
      simp only [exceptMap] at h
      cases h
      exact ⟨[], c, 0, rfl, by simp, rfl, fun _ => rfl⟩
  | cons e rest ih =>
      intro c rs h
      simp only [exceptMap] at h
      cases hpe : processEvent regB clB log10 aSep e with
      | error err => rw [hpe] at h; cases h
      | ok r =>
          rw [hpe] at h
          cases hm : exceptMap (processEvent regB clB log10 aSep) rest with
          | error err => rw [hm] at h; cases h
          | ok rs2 =>
              rw [hm] at h
              cases h
              cases hs : stop (c + 1) with
              | true =>
                  refine ⟨[WOp.beginEvent e, WOp.flush, WOp.append r], c + 1, 1,
                    ?_, ?_, ?_, ?_⟩
                  · simp [runEvents, hpe, hs]
                  · simp
                  · simp [extractRows]
                  · intro hfalse; rw [hs] at hfalse; cases hfalse
              | false =>
                  obtain ⟨ops2, c2, n, hrec, hn, hext, hfull⟩ := ih (c + 1) rs2 hm
                  refine ⟨[WOp.beginEvent e, WOp.flush, WOp.append r] ++ ops2,
                    c2, n + 1, ?_, ?_, ?_, ?_⟩
                  · simp [runEvents, hpe, hs, hrec]
                  · simpa using Nat.succ_le_succ hn
                  · simp [List.cons_append, extractRows_block, hext,
                      List.take_succ_cons]
                  · intro h0
                    simp [List.cons_append, extractRows_block, hfull h0]

theorem runFiles_stop_prefix :
    ∀ (fs : List InputFile) (c : ℕ) (rs : List RecoEventRow),
      exceptMap (processEvent regB clB log10 aSep)
          (fs.flatMap (fun f => f.events)) = Except.ok rs →
      ∃ ops c2 n, runFiles regB clB log10 aSep stop fs c = Except.ok (ops, c2) ∧
        n ≤ rs.length ∧ extractRows ops = rs.take n := by
  intro fs
  induction fs with
  | nil =>
      intro c rs h
      simp only [List.flatMap_nil, exceptMap] at h
      cases h
      exact ⟨[], c, 0, rfl, by simp, rfl⟩
  | cons f rest ih =>
      intro c rs h
      rw [List.flatMap_cons, exceptMap_append] at h
      cases h1 : exceptMap (processEvent regB clB log10 aSep) f.events with
      | error err => rw [h1] at h; cases h
      | ok rs1 =>
          rw [h1] at h
          cases h2 : exceptMap (processEvent regB clB log10 aSep)
              (rest.flatMap (fun f => f.events)) with
          | error err => rw [h2] at h; cases h
          | ok rs2 =>
              rw [h2] at h
              cases h
              obtain ⟨ops, c1, n1, hE, hn1, hext, hfull⟩ :=
                runEvents_stop_prefix regB clB log10 aSep stop f.events c rs1 h1
              cases hs : stop c1 with
              | true =>
                  refine ⟨ops, c1, n1, ?_, ?_, ?_⟩
                  · simp [runFiles, hE, hs]
                  · simp only [List.length_append]; omega
                  · rw [hext, List.take_append_of_le_length hn1]
              | false =>
                  obtain ⟨ops2, c2, n2, hR, hn2, hext2⟩ := ih c1 rs2 h2
                  refine ⟨ops ++ ops2, c2, rs1.length + n2, ?_, ?_, ?_⟩
                  · simp [runFiles, hE, hs, hR]
                  · simp only [List.length_append]; omega
                  · rw [extractRows_append, hfull (by rw [hs]), hext2,
                      List.take_append]

theorem runEvents_blocks :
    ∀ (evs : List Event) (c : ℕ) (ops : List WOp) (c2 : ℕ),
      runEvents regB clB log10 aSep stop evs c = Except.ok (ops, c2) →
      Blocks ops := by
  intro evs
  induction evs with
  | nil =>
      intro c ops c2 h
      simp only [runEvents] at h
      cases h
      exact Blocks.nil
  | cons e rest ih =>
      intro c ops c2 h
      simp only [runEvents] at h
      cases hpe : processEvent regB clB log10 aSep e with
      | error err => rw [hpe] at h; cases h
      | ok r =>
          rw [hpe] at h
          cases hs : stop (c + 1) with
          | true =>
              rw [hs] at h
              simp only [if_true] at h
              cases h
              exact Blocks.block e r [] Blocks.nil
          | false =>
              rw [hs] at h
              simp only [Bool.false_eq_true, if_false] at h
              cases hrec : runEvents regB clB log10 aSep stop rest (c + 1) with
              | error err => rw [hrec] at h; cases h
              | ok p =>
                  obtain ⟨ops2, cx⟩ := p
                  rw [hrec] at h
                  cases h
                  simpa [List.cons_append] using
                    Blocks.block e r ops2 (ih (c + 1) ops2 _ hrec)

theorem runFiles_blocks :
    ∀ (fs : List InputFile) (c : ℕ) (ops : List WOp) (c2 : ℕ),
      runFiles regB clB log10 aSep stop fs c = Except.ok (ops, c2) →
      Blocks ops := by
  intro fs
  induction fs with
  | nil =>
      intro c ops c2 h
      simp only [runFiles] at h
      cases h
      exact Blocks.nil
  | cons f rest ih =>
      intro c ops c2 h
      simp only [runFiles] at h
      cases hE : runEvents regB clB log10 aSep stop f.events c with
      | error err => rw [hE] at h; cases h
      | ok p =>
          obtain ⟨ops1, c1⟩ := p
          simp only [hE] at h
          have hb1 := runEvents_blocks regB clB log10 aSep stop f.events c ops1 c1 hE
          cases hs : stop c1 with
          | true =>
              simp [hs] at h
              rw [← h.1]
              exact hb1
          | false =>
              simp only [hs, Bool.false_eq_true, if_false] at h
              cases hR : runFiles regB clB log10 aSep stop rest c1 with
              | error err => rw [hR] at h; cases h
              | ok q =>
                  obtain ⟨ops2, cx⟩ := q
                  simp [hR] at h
                  rw [← h.1]
                  exact Blocks.concat hb1 (ih c1 ops2 _ hR)

end RunLemmas

theorem telEnergies_error (regB : ModelBank) (log10 : ℚ → FQ) (h_max : ℚ) :
    ∀ (tels : List TelData), (∃ t ∈ tels, regB t.cam_id = none) →
      ∃ cid, telEnergies regB log10 h_max tels =
          Except.error (ProcError.missingRegressorModel cid) ∧ regB cid = none := by
  intro tels
  induction tels with
  | nil => rintro ⟨t, ht, -⟩; cases ht
  | cons t0 rest ih =>
      rintro ⟨t, ht, hm⟩
      cases h0 : regB t0.cam_id with
      | none => exact ⟨t0.cam_id, by simp [telEnergies, exceptMap, h0], h0⟩
      | some m =>
          have htr : t ∈ rest := by
            cases ht with
            | head => rw [h0] at hm; cases hm
            | tail _ h => exact h
          obtain ⟨cid, hEq, hcid⟩ := ih ⟨t, htr, hm⟩
          refine ⟨cid, ?_, hcid⟩
          simp only [telEnergies, exceptMap, h0] at hEq ⊢
          rw [hEq]

theorem processEvent_ids (regB clB : ModelBank) (log10 : ℚ → FQ)
    (aSep : ℚ → ℚ → ℚ → ℚ → ℚ) (e : Event) (r : RecoEventRow)
    (hok : processEvent regB clB log10 aSep e = Except.ok r) :
    r.obs_id = storeInt16 e.obs_id ∧ r.event_id = storeInt32 e.event_id := by
  cases hh : e.hillas with
  | none =>
      simp only [processEvent, hh] at hok
      cases hok
      exact ⟨rfl, rfl⟩
  | some tels =>
      simp only [processEvent, hh] at hok
      cases hE : telEnergies regB log10 e.recoResult.h_max tels with
      | error err => rw [hE] at hok; cases hok
      | ok energies =>
          simp only [hE] at hok
          cases hS : telScores clB log10 (fuse energies (telWeights tels))
              e.recoResult.h_max tels with
          | error err => rw [hS] at hok; cases hok
          | ok scores =>
              simp only [hS] at hok
              cases hok
              exact ⟨rfl, rfl⟩

/-- Event with a present but empty hillas_dict: no contributing
telescopes, total fusion weight zero. -/
def c1ev : Event := { sampleEvent with hillas := some [] }

/-- C1: refuted as stated.  On an event whose contributing-telescope set
is empty (total fusion weight 0), the fusion expression
np.sum(weight_tel * energy_tel) / sum(weight_tel) does not raise any
catchable division-by-zero error: it evaluates to NaN (modelled `none`),
and the row is written with success = True, reco_energy = NaN and
score = NaN.  This evaluates the per-event code at such an event. -/
theorem c1_zero_weight_nan_success :
    (processEvent sampleBank sampleBank sampleLog sampleSep c1ev).map
        (fun r => (r.success, r.reco_energy, r.score)) =
      Except.ok (true, none, none) := rfl

/-- Telescope whose camera type has no model in the bank. -/
def c2tel : TelData := { cam_id := "FlashCam", moments := sampleMoments, impact := 1 }

/-- Event containing only c2tel. -/
def c2ev : Event := { sampleEvent with hillas := some [c2tel] }

/-- A model bank with no model for any camera type. -/
def c2bank : ModelBank := fun _ => none

/-- C2: counterexample to the claim as stated.  For an event containing a
telescope whose camera type has no model, the telescope is not excluded
from fusion: the per-event computation aborts with the KeyError from
regressor.model_dict[cam_id] (an uncontrolled failure of the run). -/
theorem c2_missing_model_counterexample :
    processEvent c2bank c2bank sampleLog sampleSep c2ev =
      Except.error (ProcError.missingRegressorModel "FlashCam") := rfl

/-- C2 (amended): whenever an event contains a telescope whose camera
type is absent from the regressor model bank, the per-event processing
raises the missing-model KeyError and the run aborts; no exclusion from
fusion takes place. -/
theorem c2_missing_model_aborts (regB clB : ModelBank) (log10 : ℚ → FQ)
    (aSep : ℚ → ℚ → ℚ → ℚ → ℚ) (e : Event) (tels : List TelData) (t : TelData)
    (hh : e.hillas = some tels) (ht : t ∈ tels) (hm : regB t.cam_id = none) :
    ∃ cid, processEvent regB clB log10 aSep e =
        Except.error (ProcError.missingRegressorModel cid) ∧ regB cid = none := by
  obtain ⟨cid, hEq, hcid⟩ :=
    telEnergies_error regB log10 e.recoResult.h_max tels ⟨t, ht, hm⟩
  refine ⟨cid, ?_, hcid⟩
  simp [processEvent, hh, hEq]

/-- C2 witness: the amended statement applied to a concrete event and an
empty model bank. -/
theorem c2_missing_model_aborts_witness :
    ∃ cid, processEvent c2bank c2bank sampleLog sampleSep c2ev =
        Except.error (ProcError.missingRegressorModel cid) ∧ c2bank cid = none :=
  c2_missing_model_aborts c2bank c2bank sampleLog sampleSep c2ev [c2tel] c2tel
    rfl (List.Mem.head _) rfl

/-- C3: with the cancellation flag never set, the sequence of rows a run
appends equals the per-event record computed for each event of the run,
taken in arrival order: files in sorted-name order, events within a file
in source order.  In particular exactly one record is appended per event
(success and failure rows both counted), and the output is a
deterministic function of the input, the models and the geometry. -/
theorem c3_one_record_per_event_in_order (regB clB : ModelBank)
    (log10 : ℚ → FQ) (aSep : ℚ → ℚ → ℚ → ℚ → ℚ) (stop : ℕ → Bool)
    (files : List InputFile) (hstop : ∀ k, stop k = false) :
    runRows regB clB log10 aSep stop files =
      exceptMap (processEvent regB clB log10 aSep) (arrivalEvents files) := by
  unfold runRows runTrace arrivalEvents
  have h := runFiles_noStop regB clB log10 aSep stop hstop (sortFiles files) 0
  cases hr : runFiles regB clB log10 aSep stop (sortFiles files) 0 with
  | error err =>
      rw [hr] at h
      simp only [except_map_error] at h
      rw [← h]
      rfl
  | ok p =>
      obtain ⟨ops, c⟩ := p
      rw [hr] at h
      simp only [except_map_ok] at h
      rw [← h]
      simp [extractRows_append, extractRows]

/-- One input file holding one event. -/
def sampleFile : InputFile := { name := "gamma_run1.h5", events := [sampleFailEvent] }

/-- C3 witness: the record-per-event identity on a concrete one-file,
one-event run with the flag never set. -/
theorem c3_one_record_per_event_in_order_witness :
    runRows sampleBank sampleBank sampleLog sampleSep (fun _ => false) [sampleFile] =
      exceptMap (processEvent sampleBank sampleBank sampleLog sampleSep)
        (arrivalEvents [sampleFile]) :=
  c3_one_record_per_event_in_order sampleBank sampleBank sampleLog sampleSep
    (fun _ => false) [sampleFile] (fun _ => rfl)

/-- C4: for an event with exactly one contributing telescope of nonzero
(in particular positive) intensity, the fused energy written to the row
equals that telescope's individual regressor estimate exactly, and the
fused score equals that telescope's individual classifier score exactly
(computed, as in the code, on features built from the fused energy). -/
theorem c4_single_contributor_identity (regB clB : ModelBank)
    (log10 : ℚ → FQ) (aSep : ℚ → ℚ → ℚ → ℚ → ℚ) (e : Event) (t : TelData)
    (fE fS : List FQ → FQ) (hh : e.hillas = some [t])
    (hw : 0 < t.moments.intensity)
    (hr : regB t.cam_id = some fE) (hc : clB t.cam_id = some fS) :
    (processEvent regB clB log10 aSep e).map (fun r => (r.reco_energy, r.score)) =
      Except.ok (fE (energyFeatures log10 e.recoResult.h_max t),
        fS (classificationFeatures log10
          (fE (energyFeatures log10 e.recoResult.h_max t)) e.recoResult.h_max t)) := by
  have hw' : t.moments.intensity ≠ 0 := ne_of_gt hw
  simp only [processEvent, hh, telEnergies, telScores, exceptMap, hr, hc,
    telWeights, List.map, fuse_single _ _ hw', except_map_ok]

/-- C4 witness: the identity at a concrete single-telescope event. -/
theorem c4_single_contributor_identity_witness :
    (processEvent sampleBank sampleBank sampleLog sampleSep sampleEvent).map
        (fun r => (r.reco_energy, r.score)) = Except.ok (some 1, some 1) :=
  c4_single_contributor_identity sampleBank sampleBank sampleLog sampleSep
    sampleEvent sampleTel (fun _ => some 1) (fun _ => some 1) rfl (by decide)
    rfl rfl

/-- C5: for an event with contributing telescopes, the score stored in
the row is the fusion of per-telescope classifier scores computed on
classification feature vectors whose first entry is log10 of the row's
own fused event-level energy — the same value for every telescope of the
event — so energy fusion completes before any classification feature
vector is built. -/
theorem c5_classification_uses_fused_energy (regB clB : ModelBank)
    (log10 : ℚ → FQ) (aSep : ℚ → ℚ → ℚ → ℚ → ℚ) (e : Event)
    (tels : List TelData) (r : RecoEventRow) (hh : e.hillas = some tels)
    (hne : tels ≠ [])
    (hok : processEvent regB clB log10 aSep e = Except.ok r) :
    (∃ scores, telScores clB log10 r.reco_energy e.recoResult.h_max tels =
        Except.ok scores ∧ r.score = fuse scores (telWeights tels)) ∧
    ∀ t ∈ tels, (classificationFeatures log10 r.reco_energy
        e.recoResult.h_max t).head? = some (flog10 log10 r.reco_energy) := by
  simp only [processEvent, hh] at hok
  cases hE : telEnergies regB log10 e.recoResult.h_max tels with
  | error err => rw [hE] at hok; cases hok
  | ok energies =>
      simp only [hE] at hok
      cases hS : telScores clB log10 (fuse energies (telWeights tels))
          e.recoResult.h_max tels with
      | error err => rw [hS] at hok; cases hok
      | ok scores =>
          simp only [hS] at hok
          cases hok
          refine ⟨⟨scores, hS, rfl⟩, ?_⟩
          intro t ht
          rfl

/-- The row the script computes for sampleEvent. -/
def sampleOkRow : RecoEventRow :=
  (processEvent sampleBank sampleBank sampleLog sampleSep sampleEvent).toOption.getD {}

/-- C5 witness: the fused-energy dependency at a concrete event. -/
theorem c5_classification_uses_fused_energy_witness :
    (∃ scores, telScores sampleBank sampleLog sampleOkRow.reco_energy
        sampleEvent.recoResult.h_max [sampleTel] = Except.ok scores ∧
        sampleOkRow.score = fuse scores (telWeights [sampleTel])) ∧
    ∀ t ∈ [sampleTel], (classificationFeatures sampleLog sampleOkRow.reco_energy
        sampleEvent.recoResult.h_max t).head? =
        some (flog10 sampleLog sampleOkRow.reco_energy) :=
  c5_classification_uses_fused_energy sampleBank sampleBank sampleLog sampleSep
    sampleEvent [sampleTel] sampleOkRow rfl (by decide) rfl

/-- C6: for an event with no usable Hillas moments (hillas_dict None),
the run does not abort: a row is emitted with success = false, carrying
only the identifiers (obs_id, event_id) and the ground-truth energy,
while every derived field keeps its declared default (NaN for the float
columns, including reco_energy, reco_alt, reco_az, offset, xi, h_max,
the core positions, score, gammaness and the error estimates). -/
theorem c6_missing_geometry_row (regB clB : ModelBank) (log10 : ℚ → FQ)
    (aSep : ℚ → ℚ → ℚ → ℚ → ℚ) (e : Event) (hh : e.hillas = none) :
    processEvent regB clB log10 aSep e =
      Except.ok { success := false, mc_energy := some e.mc_energy,
                  event_id := storeInt32 e.event_id,
                  obs_id := storeInt16 e.obs_id } := by
  simp [processEvent, hh]

/-- C6 witness: the failure row at a concrete missing-geometry event. -/
theorem c6_missing_geometry_row_witness :
    processEvent sampleBank sampleBank sampleLog sampleSep sampleFailEvent =
      Except.ok sampleFailRow :=
  c6_missing_geometry_row sampleBank sampleBank sampleLog sampleSep
    sampleFailEvent rfl

/-- One input file holding two missing-geometry events. -/
def c7file : InputFile :=
  { name := "gamma_run1.h5", events := [sampleFailEvent, sampleFailEvent] }

/-- C7: counterexample to the claim as stated.  On a concrete two-event
run the writer trace violates the claimed discipline of flushing after
each appended row before the next event is processed: the code flushes
on line 246 before the append on line 247, so the first appended row is
not followed by any flush before processing of the second event begins. -/
theorem c7_flush_order_counterexample :
    (runTrace sampleBank sampleBank sampleLog sampleSep (fun _ => false)
        [c7file]).map flushAfterEachAppend = Except.ok false := rfl

/-- C7 (amended): the record writer appends exactly one fixed-schema row
per event; the flush adjacent to each append happens immediately before
the append (not after it), and a final flush follows the loop, so every
appended row is flushed before the run returns, though not between a
row's append and the start of the next event's processing. -/
theorem c7_flush_before_append (regB clB : ModelBank) (log10 : ℚ → FQ)
    (aSep : ℚ → ℚ → ℚ → ℚ → ℚ) (stop : ℕ → Bool) (files : List InputFile)
    (tr : List WOp)
    (hok : runTrace regB clB log10 aSep stop files = Except.ok tr) :
    appendsPrecededByFlush tr = true ∧ allAppendsFlushed tr = true := by
  unfold runTrace at hok
  cases hr : runFiles regB clB log10 aSep stop (sortFiles files) 0 with
  | error err => rw [hr] at hok; cases hok
  | ok p =>
      obtain ⟨ops, c⟩ := p
      rw [hr] at hok
      simp only [except_map_ok] at hok
      cases hok
      exact ⟨blocks_appendsPreceded
          (runFiles_blocks regB clB log10 aSep stop (sortFiles files) 0 ops c hr),
        allAppendsFlushed_concat ops⟩

/-- The writer trace of the concrete two-event run. -/
def c7trace : List WOp :=
  (runTrace sampleBank sampleBank sampleLog sampleSep (fun _ => false)
    [c7file]).toOption.getD []

/-- C7 witness: the amended flush discipline on the concrete run. -/
theorem c7_flush_before_append_witness :
    appendsPrecededByFlush c7trace = true ∧ allAppendsFlushed c7trace = true :=
  c7_flush_before_append sampleBank sampleBank sampleLog sampleSep
    (fun _ => false) [c7file] c7trace rfl

/-- C8: cooperative-cancellation integrity.  For any behaviour of the
cancellation flag (observed, as in the code, only at the per-event check
of line 249 and the per-file check of line 251), if processing every
event of the run would produce the row list allRows, then the run
appends exactly a prefix of allRows — one complete row per event fully
processed before the flag was observed, no partial final row, no row for
events not started — and the trace ends with a flush, so all buffered
rows are flushed before the run returns. -/
theorem c8_cancellation_integrity (regB clB : ModelBank) (log10 : ℚ → FQ)
    (aSep : ℚ → ℚ → ℚ → ℚ → ℚ) (stop : ℕ → Bool) (files : List InputFile)
    (allRows : List RecoEventRow)
    (hall : exceptMap (processEvent regB clB log10 aSep) (arrivalEvents files) =
      Except.ok allRows) :
    (∃ n, n ≤ allRows.length ∧
        runRows regB clB log10 aSep stop files = Except.ok (allRows.take n)) ∧
    ∃ tr, runTrace regB clB log10 aSep stop files = Except.ok tr ∧
        allAppendsFlushed tr = true := by
  unfold arrivalEvents at hall
  obtain ⟨ops, c2, n, hR, hn, hext⟩ :=
    runFiles_stop_prefix regB clB log10 aSep stop (sortFiles files) 0 allRows hall
  constructor
  · refine ⟨n, hn, ?_⟩
    unfold runRows runTrace
    rw [hR]
    simp only [except_map_ok, extractRows_append, hext]
    simp [extractRows]
  · refine ⟨ops ++ [WOp.flush], ?_, allAppendsFlushed_concat ops⟩
    unfold runTrace
    rw [hR]
    rfl

/-- C8 witness: integrity on a concrete run whose flag is set from the
start; the single event still completes its full row. -/
theorem c8_cancellation_integrity_witness :
    (∃ n, n ≤ ([sampleFailRow].length) ∧
        runRows sampleBank sampleBank sampleLog sampleSep (fun _ => true)
          [sampleFile] = Except.ok (List.take n [sampleFailRow])) ∧
    ∃ tr, runTrace sampleBank sampleBank sampleLog sampleSep (fun _ => true)
        [sampleFile] = Except.ok tr ∧ allAppendsFlushed tr = true :=
  c8_cancellation_integrity sampleBank sampleBank sampleLog sampleSep
    (fun _ => true) [sampleFile] [sampleFailRow] rfl

/-- C9: evaluation of the startup file-discovery code.  When an
input-file list is supplied but no file matches, the script prints the
no-files report and exits with the non-zero status -1 before any
processing (second conjunct).  But when no input-file list argument is
supplied at all (args.infile_list is None or an empty list), line 57
reads the never-assigned local filenamelist and the script dies with an
uncaught NameError instead of reporting the missing-input condition
(first and third conjuncts) — still a non-zero exit before any
processing, but not the reported condition the claim requires. -/
theorem c9_startup_no_files :
    startup none (fun _ => []) = StartupOutcome.nameError ∧
    startup (some ["gamma_file.h5"]) (fun _ => []) =
      StartupOutcome.reportedExit ∧
    startup (some []) (fun _ => []) = StartupOutcome.nameError :=
  ⟨rfl, rfl, rfl⟩

/-- Event whose identifiers exceed the signed 16-bit and 32-bit ranges. -/
def c10ev : Event :=
  { sampleFailEvent with obs_id := 32768, event_id := 2147483648 }

/-- The row emitted for c10ev. -/
def c10row : RecoEventRow :=
  { success := false, mc_energy := some 2,
    event_id := storeInt32 2147483648, obs_id := storeInt16 32768 }

/-- C10: obs_id is stored through a 16-bit and event_id through a 32-bit
signed integer column.  For every emitted row the stored obs_id is
congruent to the event's obs_id modulo 2^16 and the stored event_id to
the event's event_id modulo 2^32, and — each implication independently —
whenever obs_id lies outside the signed 16-bit range the stored obs_id
differs from the actual one, and whenever event_id lies outside the
signed 32-bit range the stored event_id differs from the actual one. -/
theorem c10_identifier_wrap (regB clB : ModelBank) (log10 : ℚ → FQ)
    (aSep : ℚ → ℚ → ℚ → ℚ → ℚ) (e : Event) (r : RecoEventRow)
    (hok : processEvent regB clB log10 aSep e = Except.ok r) :
    r.obs_id % 2 ^ 16 = e.obs_id % 2 ^ 16 ∧
    r.event_id % 2 ^ 32 = e.event_id % 2 ^ 32 ∧
    ((e.obs_id < -(2 ^ 15) ∨ 2 ^ 15 ≤ e.obs_id) → r.obs_id ≠ e.obs_id) ∧
    ((e.event_id < -(2 ^ 31) ∨ 2 ^ 31 ≤ e.event_id) → r.event_id ≠ e.event_id) := by
  obtain ⟨h1, h2⟩ := processEvent_ids regB clB log10 aSep e r hok
  rw [h1, h2]
  simp only [storeInt16, storeInt32, wrapSigned]
  norm_num
  omega

/-- C10 witness: the wrap at obs_id = 32768 and event_id = 2^31, with
each out-of-range implication firing. -/
theorem c10_identifier_wrap_witness :
    c10row.obs_id % 2 ^ 16 = (32768 : ℤ) % 2 ^ 16 ∧
    c10row.event_id % 2 ^ 32 = (2147483648 : ℤ) % 2 ^ 32 ∧
    (((32768 : ℤ) < -(2 ^ 15) ∨ (2 : ℤ) ^ 15 ≤ (32768 : ℤ)) →
      c10row.obs_id ≠ (32768 : ℤ)) ∧
    (((2147483648 : ℤ) < -(2 ^ 31) ∨ (2 : ℤ) ^ 31 ≤ (2147483648 : ℤ)) →
      c10row.event_id ≠ (2147483648 : ℤ)) :=
  c10_identifier_wrap sampleBank sampleBank sampleLog sampleSep c10ev c10row rfl

end WriteDL2
